import Mathlib

/-!
Verification of the video relay bot (`src/main.js`).

All definitions in the `Bot` namespace are shallow embeddings of the
JavaScript source.  JavaScript strings are modelled as Lean `String`
(`toLowerCase` is modelled on the ASCII range, which covers every pattern
the code tests), `undefined` option fields as `Option`, and calls to the
external `yt-dlp` process as an environment function from the call index
(in program order) to the call's outcome.
-/

namespace Bot

/-- Helper: does `pat` occur as a contiguous sublist of `l`? -/
def hasSub : List Char → List Char → Bool
  | [], pat => pat.isPrefixOf []
  | l@(_ :: t), pat => pat.isPrefixOf l || hasSub t pat

/-- `s.includes(pat)` on JavaScript strings: substring containment. -/
def jsIncludes (s pat : String) : Bool :=
  hasSub s.data pat.data

/-- `s.toLowerCase()`, modelled on the ASCII range. -/
def jsToLower (s : String) : String :=
  ⟨s.data.map Char.toLower⟩

/-- JavaScript `a || d` for an optional string field: `undefined` and the
empty string are falsy. -/
def jsOrStr (o : Option String) (d : String) : String :=
  match o with
  | none => d
  | some s => if s = "" then d else s

/-- JavaScript truthiness of an optional numeric field: `undefined` and `0`
are falsy. -/
def jsTruthyNat (o : Option Nat) : Bool :=
  match o with
  | none => false
  | some n => n != 0

/-- `str.split(sep)` for a one-character separator, on character lists. -/
def splitOnChar (sep : Char) : List Char → List (List Char)
  | [] => [[]]
  | c :: t =>
    match splitOnChar sep t, decide (c = sep) with
    | r, true => [] :: r
    | [], false => [[c]]
    | h :: t', false => (c :: h) :: t'

/-- `error.message.split('\n')[0]`. -/
def firstLine (s : String) : String :=
  ⟨(splitOnChar '\n' s.data).headD []⟩

/-- A character the JavaScript regex class `.` (dot) refuses to match:
the line terminators `\n`, `\r`, U+2028, U+2029. -/
def isJsLineTerminator (c : Char) : Bool :=
  c = '\n' || c = '\r' || c = Char.ofNat 0x2028 || c = Char.ofNat 0x2029

/-- The test `/youtube\.com.*\/shorts\//.test(s)` (the `match` call at
src/main.js line 56): some occurrence of `youtube.com`, then arbitrary
non-line-terminator characters, then `/shorts/`. -/
def matchesShortsRegex (s : String) : Bool :=
  let l := s.data
  (List.range (l.length + 1)).any (fun i =>
    "youtube.com".data.isPrefixOf (l.drop i) &&
    (let rest := l.drop (i + 11)
     (List.range (rest.length + 1)).any (fun j =>
       "/shorts/".data.isPrefixOf (rest.drop j) &&
       (rest.take j).all (fun c => !(isJsLineTerminator c)))))

/-- `detectLinkType` (src/main.js lines 53–71): lower-case the URL and test
host substrings in a fixed order, `shorts` first. -/
def detectLinkType (url : String) : String :=
  let urlLower := jsToLower url
  if jsIncludes urlLower "youtube.com/shorts/" || matchesShortsRegex urlLower then
    "youtube_shorts"
  else if jsIncludes urlLower "youtube.com" || jsIncludes urlLower "youtu.be" then
    "youtube"
  else if jsIncludes urlLower "instagram.com" then
    "instagram"
  else if jsIncludes urlLower "tiktok.com" then
    "tiktok"
  else if jsIncludes urlLower "twitter.com" || jsIncludes urlLower "x.com" then
    "twitter"
  else if jsIncludes urlLower "vk.com" then
    "vk"
  else
    "other"

/-- Modelled from the spec's words (§4.1, §8): the classifier as an ordered
rule list where the first matching rule wins and the default is `other`.
Used only to state the refinement claim about `detectLinkType`. -/
def specRules : List ((String → Bool) × String) :=
  [ (fun s => jsIncludes s "youtube.com/shorts/" || matchesShortsRegex s, "youtube_shorts"),
    (fun s => jsIncludes s "youtube.com" || jsIncludes s "youtu.be", "youtube"),
    (fun s => jsIncludes s "instagram.com", "instagram"),
    (fun s => jsIncludes s "tiktok.com", "tiktok"),
    (fun s => jsIncludes s "twitter.com" || jsIncludes s "x.com", "twitter"),
    (fun s => jsIncludes s "vk.com", "vk") ]

/-- Modelled from the spec's words: first-match classification over
`specRules`, default `other`. -/
def specClassify (url : String) : String :=
  let urlLower := jsToLower url
  match specRules.find? (fun r => r.1 urlLower) with
  | some r => r.2
  | none => "other"

/-! ## The yt-dlp option objects and the probe strategies -/

/-- The `extractorArgs` field: the source passes either an array of strings
(strategy 0, fetch options) or a single string (strategy 7). -/
inductive ExtrArgs where
  | list (args : List String)
  | str (s : String)
deriving DecidableEq, Repr

/-- The option object handed to `yt-dlp`.  Absent (`undefined`) fields are
`none` / `false`. -/
structure Opts where
  dumpSingleJson : Bool := false
  listFormats : Bool := false
  noWarnings : Bool := false
  format : Option String := none
  addHeader : Option (List String) := none
  extractorArgs : Option ExtrArgs := none
  noCheckCertificates : Bool := false
  noPlaylist : Bool := false
  concurrent : Option Nat := none
  maxDownloads : Option Nat := none
  retries : Option Nat := none
  extractor : Option String := none
  ageLimit : Option Nat := none
  preferFreeFormats : Bool := false
  output : Option String := none
deriving DecidableEq, Repr

/-- The metadata record returned by a successful probe (`dumpSingleJson`). -/
structure Info where
  id : String
  title : Option String := none
  duration : Option Nat := none
  uploader : Option String := none
  webpage_url : Option String := none
deriving DecidableEq, Repr

/-- One invocation of the external tool: the options passed and whether the
call succeeded. -/
structure CallRec where
  opts : Opts
  ok : Bool
deriving DecidableEq, Repr

/-- The value `downloadVideo` resolves with: `{ info, file: outFile }`. -/
structure DownloadOk where
  info : Info
  file : String
deriving DecidableEq, Repr

/-- Environment configuration read at startup (src/main.js lines 40–42)
plus the module directory used to build the output path. -/
structure Config where
  maxDuration : Nat
  maxHeight : Nat
  dir : String
deriving DecidableEq, Repr

instance {e a : Type} [DecidableEq e] [DecidableEq a] : DecidableEq (Except e a) :=
  fun x y =>
    match x, y with
    | .ok v, .ok w => if h : v = w then .isTrue (by rw [h]) else .isFalse (by simp [h])
    | .error v, .error w => if h : v = w then .isTrue (by rw [h]) else .isFalse (by simp [h])
    | .ok _, .error _ => .isFalse (by simp)
    | .error _, .ok _ => .isFalse (by simp)

/-- The external world: outcome of the `n`-th call (in program order) to the
external `yt-dlp` tool — metadata on success, a diagnostic message on
failure.  For fetch calls only success/failure and the message matter. -/
def Env : Type := Nat → Except String Info

/-- The long mobile (iPhone) user agent used by strategy 0 and by the
default fetch headers. -/
def mobileUA : String :=
  "User-Agent:Mozilla/5.0 (iPhone; CPU iPhone OS 14_0 like Mac OS X) AppleWebKit/605.1.15 (KHTML, like Gecko) Version/14.0 Mobile/15E148 Safari/604.1"

/-- The three headers of strategy 0 and the default fetch headers. -/
def mobileHeaders : List String :=
  [ mobileUA,
    "Accept:text/html,application/xhtml+xml,application/xml;q=0.9,*/*;q=0.8",
    "Accept-Language:en-us" ]

/-- `checkFormats` options (src/main.js lines 92–97); result is ignored. -/
def checkFormatsOpts (linkType : String) : Opts :=
  { listFormats := true
    noWarnings := true
    noCheckCertificates := true
    extractorArgs :=
      if linkType = "youtube_shorts" then some (.list ["youtube:player_client=android"])
      else none }

/-- The ordered probe strategies (src/main.js lines 110–227), evaluated at
the link type the closures capture. -/
def strategies (linkType : String) : List Opts :=
  [ -- strategy 0: youtube-shorts special, mobile API
    if linkType = "youtube_shorts" then
      { dumpSingleJson := true
        noWarnings := true
        format := some "18/best[height<=720]"
        addHeader := some mobileHeaders
        extractorArgs := some (.list ["youtube:player_client=android", "youtube:player_skip=webpage"])
        noCheckCertificates := true
        noPlaylist := true
        concurrent := some 1
        maxDownloads := some 1
        retries := some 3 }
    else
      { dumpSingleJson := true, noWarnings := true, format := some "best" },
    -- strategy 1: basic
    { dumpSingleJson := true, noWarnings := true, format := some "best" },
    -- strategy 2: with desktop user agent
    { dumpSingleJson := true
      noWarnings := true
      format := some "best"
      addHeader := some ["User-Agent:Mozilla/5.0 (Windows NT 10.0; Win64; x64) AppleWebKit/537.36 (KHTML, like Gecko) Chrome/120.0.0.0 Safari/537.36"] },
    -- strategy 3: worst format
    { dumpSingleJson := true, noWarnings := true, format := some "worst" },
    -- strategy 4: youtube restriction bypass
    if linkType = "youtube" then
      { dumpSingleJson := true
        noWarnings := true
        format := some "best"
        addHeader := some ["User-Agent:Mozilla/5.0 (Windows NT 10.0; Win64; x64) AppleWebKit/537.36"]
        extractor := some "youtube"
        ageLimit := some 99 }
    else
      { dumpSingleJson := true, noWarnings := true, format := some "best" },
    -- strategy 5: instagram without cookies
    if linkType = "instagram" then
      { dumpSingleJson := true
        noWarnings := true
        format := some "best"
        addHeader := some ["User-Agent:Mozilla/5.0 (iPhone; CPU iPhone OS 14_0 like Mac OS X) AppleWebKit/605.1.15"] }
    else
      { dumpSingleJson := true, noWarnings := true, format := some "best" },
    -- strategy 6: minimal options
    { dumpSingleJson := true, format := some "best" },
    -- strategy 7: direct format for youtube shorts
    if linkType = "youtube_shorts" then
      { dumpSingleJson := true
        format := some "18/22"
        noCheckCertificates := true
        noPlaylist := true
        extractorArgs := some (.str "youtube:player-client=web") }
    else
      { dumpSingleJson := true, format := some "worst" },
    -- strategy 8: last attempt with base settings
    { dumpSingleJson := true
      format := some "18"
      noCheckCertificates := true
      noPlaylist := true } ]

/-- The classified error thrown when the last probe strategy fails
(src/main.js lines 246–254); `msg` is the last failure's message. -/
def exhaustMsg (linkType msg : String) : String :=
  if linkType = "instagram" then
    "Не удалось загрузить видео из Instagram. Возможно, видео приватное или требует авторизации."
  else if linkType = "youtube" then
    "Не удалось загрузить YouTube видео. Возможно, видео недоступно или имеет ограничения."
  else
    "Не удалось загрузить видео: " ++ firstLine msg

/-- The duration-ceiling error message (src/main.js line 260). -/
def durationMsg (duration maxDuration : Nat) : String :=
  "Видео слишком длинное: " ++ toString duration ++ "s > " ++ toString maxDuration ++ "s"

/-- `path.join(__dirname, id + '.mp4')` (src/main.js line 263). -/
def outFilePath (dir id : String) : String :=
  dir ++ "/" ++ id ++ ".mp4"

/-- The fetch options (src/main.js lines 266–292): defaults built from the
link type, then the succeeding probe options' `addHeader` and `ageLimit`
copied over when (JS-)truthy. -/
def fetchOptions (linkType : String) (finalOptions : Opts) (outFile : String) : Opts :=
  let base : Opts :=
    { output := some outFile
      format := some (if linkType = "youtube_shorts" then "18/best[height<=720]"
                      else jsOrStr finalOptions.format "best")
      noWarnings := true
      preferFreeFormats := true
      noCheckCertificates := true
      addHeader := some mobileHeaders
      extractorArgs :=
        if linkType = "youtube_shorts"
        then some (.list ["youtube:player_client=android", "youtube:player_skip=webpage", "youtube:embed_webpage=1"])
        else none
      concurrent := some 1
      retries := some 3 }
  let withHdr := if finalOptions.addHeader.isSome then { base with addHeader := finalOptions.addHeader } else base
  if jsTruthyNat finalOptions.ageLimit then { withHdr with ageLimit := finalOptions.ageLimit } else withHdr

/-- First ultimate-fallback fetch options (src/main.js lines 302–305). -/
def bestOpts (outFile : String) : Opts :=
  { output := some outFile, format := some "best" }

/-- Second ultimate-fallback fetch options: the same object with its format
mutated to `worst` (src/main.js line 312). -/
def worstOpts (outFile : String) : Opts :=
  { output := some outFile, format := some "worst" }

/-- The probe loop (src/main.js lines 230–256): try each strategy at the
successive call indices starting at `n`; stop at the first success, keeping
the succeeding options; when the last strategy fails, produce that failure's
message.  Also records every call made.  (`strategies` is never empty, so
the `[]` case is unreachable.) -/
def tryStrategies (env : Env) (n : Nat) : List Opts → Except String (Opts × Info) × List CallRec
  | [] => (.error "", [])
  | o :: rest =>
    match env n with
    | .ok info => (.ok (o, info), [⟨o, true⟩])
    | .error msg =>
      match rest with
      | [] => (.error msg, [⟨o, false⟩])
      | _ :: _ =>
        let r := tryStrategies env (n + 1) rest
        (r.1, ⟨o, false⟩ :: r.2)

/-- `downloadVideo` (src/main.js lines 83–319), as a function of the
configuration, the URL and the environment of external-call outcomes.
Call 0 is `checkFormats` (its result is discarded); calls 1… are the probe
strategies; the calls after the probe are the fetch attempts.  Returns the
promise outcome together with the full trace of external invocations. -/
def downloadVideo (cfg : Config) (url : String) (env : Env) :
    Except String DownloadOk × List CallRec :=
  let linkType := detectLinkType url
  let c0 : CallRec := ⟨checkFormatsOpts linkType, (env 0).isOk⟩
  let probe := tryStrategies env 1 (strategies linkType)
  match probe.1 with
  | .error msg => (.error (exhaustMsg linkType msg), c0 :: probe.2)
  | .ok (finalOptions, info) =>
    let probeTrace := c0 :: probe.2
    let n1 := 1 + probe.2.length
    let duration := info.duration.getD 0
    if duration > cfg.maxDuration then
      (.error (durationMsg duration cfg.maxDuration), probeTrace)
    else
      let outFile := outFilePath cfg.dir info.id
      let dOpts := fetchOptions linkType finalOptions outFile
      match env n1 with
      | .ok _ => (.ok ⟨info, outFile⟩, probeTrace ++ [⟨dOpts, true⟩])
      | .error _ =>
        match env (n1 + 1) with
        | .ok _ => (.ok ⟨info, outFile⟩, probeTrace ++ [⟨dOpts, false⟩, ⟨bestOpts outFile, true⟩])
        | .error _ =>
          match env (n1 + 2) with
          | .ok _ =>
            (.ok ⟨info, outFile⟩,
             probeTrace ++ [⟨dOpts, false⟩, ⟨bestOpts outFile, false⟩, ⟨worstOpts outFile, true⟩])
          | .error m2 =>
            (.error m2,
             probeTrace ++ [⟨dOpts, false⟩, ⟨bestOpts outFile, false⟩, ⟨worstOpts outFile, false⟩])

/-- A call record is a fetch-phase invocation iff it carries an output path
(probe calls never do). -/
def isFetchRec (r : CallRec) : Bool :=
  r.opts.output.isSome

/-- The options the probe phase succeeded with, if it succeeded. -/
def probeWinner (env : Env) (linkType : String) : Option Opts :=
  match (tryStrategies env 1 (strategies linkType)).1 with
  | .ok (o, _) => some o
  | .error _ => none

/-- The `addHeader` field of a recorded call. -/
def recHeader (r : CallRec) : Option (List String) :=
  r.opts.addHeader

/-! ## The message handler, delivery and feed watcher -/

/-- The user-facing error selection of the text handler's catch block
(src/main.js lines 389–411): substring tests on the failure's message, in
source order, with the generic message as the default. -/
def classifyUserError (linkType msg : String) : String :=
  if jsIncludes msg "Instagram" then
    "Instagram видео недоступно. Возможно, аккаунт приватный или видео удалено."
  else if linkType = "youtube_shorts" && jsIncludes msg "YouTube" then
    "Не удалось загрузить YouTube Shorts. Попробуйте позже или проверьте доступность видео."
  else if jsIncludes msg "YouTube" then
    "YouTube видео недоступно. Возможно, видео приватное или имеет ограничения."
  else if jsIncludes msg "слишком длинное" then
    msg
  else if jsIncludes msg "Private video" then
    "Видео приватное или недоступно."
  else if jsIncludes msg "Video unavailable" then
    "Видео недоступно или было удалено."
  else if jsIncludes msg "Sign in to confirm your age" then
    "Видео требует подтверждения возраста. Попробуйте другую ссылку."
  else
    "Ошибка при скачивании видео 😔"

/-- The platform display name used in captions (src/main.js lines 323–330):
a lookup with fallback; `youtube_shorts` is absent from the map, so it also
falls back. -/
def platformName (platform : String) : String :=
  if platform = "youtube" then "YouTube"
  else if platform = "instagram" then "Instagram"
  else if platform = "tiktok" then "TikTok"
  else if platform = "twitter" then "Twitter"
  else if platform = "vk" then "VK"
  else "Видео"

/-- JS truthiness of an optional numeric used in `if (info.duration)`. -/
def buildCaption (info : Info) : String :=
  let platform := detectLinkType (info.webpage_url.getD "")
  let name := platformName platform
  let c0 := "*" ++ jsOrStr info.title "Видео" ++ "*"
  let c1 := if jsTruthyNat info.duration then c0 ++ "\n⏱ " ++ toString (info.duration.getD 0) ++ "s" else c0
  let c2 := match info.uploader with
            | some u => if u = "" then c1 else c1 ++ " • 👤 " ++ u
            | none => c1
  match info.webpage_url with
  | some w => if w = "" then c2 else c2 ++ "\n\n[" ++ name ++ "](" ++ w ++ ")"
  | none => c2

/-- An observable side effect of delivery. -/
inductive Eff where
  | send (file caption : String)
  | unlink (file : String)
deriving DecidableEq, Repr

/-- Whether an effect is a file deletion. -/
def isUnlink : Eff → Bool
  | .unlink _ => true
  | _ => false

/-- `sendVideo` (src/main.js lines 321–352): build the caption, call
`replyWithVideo`, and delete the file only after that call returns
successfully; a failed send throws and the unlink is never reached.
`sendOk` is whether the outbound channel accepts the delivery. -/
def sendVideo (sendOk : Bool) (info : Info) (file : String) :
    Except String Unit × List Eff :=
  let caption := buildCaption info
  if sendOk then (.ok (), [.send file caption, .unlink file])
  else (.error "delivery failed", [.send file caption])

/-- The JavaScript regex whitespace class `\s` (the characters relevant to
`[^\s]+`). -/
def isJsWhitespace (c : Char) : Bool :=
  c = ' ' || c = '\t' || c = '\n' || c = '\r' || c = '\x0b' || c = '\x0c' ||
  c = Char.ofNat 0xa0 || c = Char.ofNat 0x1680 ||
  (0x2000 ≤ c.toNat && c.toNat ≤ 0x200a) ||
  c = Char.ofNat 0x2028 || c = Char.ofNat 0x2029 || c = Char.ofNat 0x202f ||
  c = Char.ofNat 0x205f || c = Char.ofNat 0x3000 || c = Char.ofNat 0xfeff

/-- One attempt of the regex `https?:\/\/[^\s]+` at the start of `l`:
`https://` or `http://`, then at least one non-whitespace character. -/
def urlMatchAt (l : List Char) : Option (List Char) :=
  if "https://".data.isPrefixOf l then
    let tok := (l.drop 8).takeWhile (fun c => !(isJsWhitespace c))
    if tok.isEmpty then none else some ("https://".data ++ tok)
  else if "http://".data.isPrefixOf l then
    let tok := (l.drop 7).takeWhile (fun c => !(isJsWhitespace c))
    if tok.isEmpty then none else some ("http://".data ++ tok)
  else none

/-- The first match of `text.match(/https?:\/\/[^\s]+/g)` (src/main.js
line 361): scan positions left to right. -/
def firstUrl : List Char → Option (List Char)
  | [] => none
  | c :: rest =>
    match urlMatchAt (c :: rest) with
    | some m => some m
    | none => firstUrl rest

/-- `text.trim()`, with the JS whitespace class. -/
def jsTrim (s : String) : String :=
  ⟨(s.data.dropWhile isJsWhitespace).reverse.dropWhile isJsWhitespace |>.reverse⟩

/-- An observable action of the text handler. -/
inductive HandlerAct where
  | reply (msg : String)
  | download (url : String)
deriving DecidableEq, Repr

/-- Whether a handler action invokes the extraction pipeline. -/
def isDownloadAct : HandlerAct → Bool
  | .download _ => true
  | _ => false

/-- The reply sent when the message holds no link (src/main.js line 364). -/
def askLinkMsg : String :=
  "Пришли мне ссылку на видео, и я его скачаю! 📹"

/-- The reply sent when `new URL(url)` throws (src/main.js line 371). -/
def invalidUrlMsg : String :=
  "Некорректная ссылка. Проверь и попробуй ещё раз."

/-- The per-platform progress emoji (src/main.js lines 375–382), looked up
at the detected link type (absent keys yield `undefined`, rendered by the
template literal as the string `undefined`). -/
def platformEmoji (linkType : String) : String :=
  if linkType = "youtube" then "📺"
  else if linkType = "instagram" then "📸"
  else if linkType = "tiktok" then "🎵"
  else if linkType = "twitter" then "🐦"
  else if linkType = "vk" then "🔵"
  else if linkType = "other" then "🎬"
  else "undefined"

/-- The prefix of the text handler (src/main.js lines 357–386) up to and
including the decision to invoke `downloadVideo`: trim the text, find the
first `https?://…` match, ask for a link when there is none, reject it when
the WHATWG URL parser (`validUrl`, an external collaborator) refuses it,
otherwise announce progress and start the download. -/
def textHandler (validUrl : String → Bool) (raw : String) : List HandlerAct :=
  let text := jsTrim raw
  match firstUrl text.data with
  | none => [.reply askLinkMsg]
  | some u =>
    let url : String := ⟨u⟩
    if validUrl url then
      [.reply (platformEmoji (detectLinkType url) ++ " Скачиваю видео..."), .download url]
    else
      [.reply invalidUrlMsg]

/-- A feed entry as consumed by `autoSync`: `entry.id` may be absent. -/
structure FeedEntry where
  id : Option String
deriving DecidableEq, Repr

/-- `entry.id?.split(':').pop()` guarded by the falsy check `!id`
(src/main.js line 424): the segment after the last `:`; an absent id or an
empty segment is skipped. -/
def entryVideoId (e : FeedEntry) : Option String :=
  match e.id with
  | none => none
  | some s =>
    let v : String := ⟨(splitOnChar ':' s.data).getLastD []⟩
    if v = "" then none else some v

/-- An observable action of one feed poll. -/
inductive SyncEff where
  | download (id : String)
  | post (id : String)
deriving DecidableEq, Repr

/-- One timer tick of `autoSync` (src/main.js lines 420–440): for each feed
entry, skip entries without a usable id and entries already seen; otherwise
download (`dOk` says whether `downloadVideo` resolves) and, on success, post
(`pOk` says whether `sendVideo` to the target chat resolves); the id is
added to the seen set only after both succeed, and a failure is only
logged. -/
def syncTick (dOk pOk : String → Bool) (seen : List String) :
    List FeedEntry → List String × List SyncEff
  | [] => (seen, [])
  | e :: rest =>
    match entryVideoId e with
    | none => syncTick dOk pOk seen rest
    | some id =>
      if id ∈ seen then syncTick dOk pOk seen rest
      else if dOk id then
        if pOk id then
          let r := syncTick dOk pOk (id :: seen) rest
          (r.1, .download id :: .post id :: r.2)
        else
          let r := syncTick dOk pOk seen rest
          (r.1, .download id :: .post id :: r.2)
      else
        let r := syncTick dOk pOk seen rest
        (r.1, .download id :: r.2)

/-- The ids a feed yields, in order (entries without a usable id dropped). -/
def feedIds (es : List FeedEntry) : List String :=
  es.filterMap entryVideoId

/-! ## Concrete inputs used by the witnesses -/

/-- A configuration with the default ceiling values. -/
def cfg0 : Config := ⟨75, 1080, "/app"⟩

/-- A probe result: a ten-second video. -/
def info0 : Info :=
  ⟨"vid1", some "Title", some 10, some "Up", some "https://vk.com/video1"⟩

/-- A probe result: a 120-second video. -/
def infoLong : Info :=
  ⟨"vid2", some "Title", some 120, some "Up", some "https://vk.com/video2"⟩

/-- An environment in which every external call fails. -/
def envFail : Env := fun _ => .error "boom"

/-- An environment in which probe strategy 3 (call 4) yields `info0` and the
first fetch attempt (call 5) succeeds; everything else fails. -/
def env3 : Env := fun n =>
  if n = 4 then .ok info0 else if n = 5 then .ok info0 else .error "err"

/-- An environment in which probe strategy 0 (call 1) yields `infoLong`. -/
def envLong : Env := fun n =>
  if n = 1 then .ok infoLong else .error "err"

/-- An environment in which probe strategy 0 succeeds with `info0` but every
fetch attempt fails. -/
def envFetchFail : Env := fun n =>
  if n = 1 then .ok info0 else .error ("fail" ++ toString n)

/-- The message of a failed call (unused placeholder for a success). -/
def errMsg : Except String Info → String
  | .ok _ => ""
  | .error m => m

/-- The number of probe calls made (after the `checkFormats` call). -/
def probeLen (env : Env) (lt : String) : Nat :=
  (tryStrategies env 1 (strategies lt)).2.length

/-- The fetch-phase invocations of a `downloadVideo` run. -/
def fetchTrace (cfg : Config) (url : String) (env : Env) : List CallRec :=
  ((downloadVideo cfg url env).2).filter isFetchRec

/-! ## Helper lemmas about the probe loop -/

theorem tryStrategies_cons_ok (env : Env) (n : Nat) (o : Opts) (rest : List Opts)
    (i : Info) (h : env n = .ok i) :
    tryStrategies env n (o :: rest) = (.ok (o, i), [⟨o, true⟩]) := by
  simp only [tryStrategies, h]

theorem tryStrategies_last_error (env : Env) (n : Nat) (o : Opts)
    (m : String) (h : env n = .error m) :
    tryStrategies env n [o] = (.error m, [⟨o, false⟩]) := by
  simp only [tryStrategies, h]

theorem tryStrategies_cons_error (env : Env) (n : Nat) (o o2 : Opts) (rest2 : List Opts)
    (m : String) (h : env n = .error m) :
    tryStrategies env n (o :: o2 :: rest2) =
      ((tryStrategies env (n + 1) (o2 :: rest2)).1,
       ⟨o, false⟩ :: (tryStrategies env (n + 1) (o2 :: rest2)).2) := by
  simp only [tryStrategies, h]

theorem tryStrategies_trace_nonempty (env : Env) :
    ∀ (opts : List Opts) (n : Nat), opts ≠ [] → (tryStrategies env n opts).2 ≠ [] := by
  intro opts
  induction opts with
  | nil => intro n h; exact absurd rfl h
  | cons o rest ih =>
    intro n _
    cases henv : env n with
    | ok i => rw [tryStrategies_cons_ok env n o rest i henv]; simp
    | error m =>
      cases rest with
      | nil => rw [tryStrategies_last_error env n o m henv]; simp
      | cons o2 rest2 =>
        rw [tryStrategies_cons_error env n o o2 rest2 m henv]; simp

theorem tryStrategies_opts_initial_segment (env : Env) :
    ∀ (opts : List Opts) (n : Nat),
      ((tryStrategies env n opts).2).map CallRec.opts =
        opts.take ((tryStrategies env n opts).2).length := by
  intro opts
  induction opts with
  | nil => intro n; simp [tryStrategies]
  | cons o rest ih =>
    intro n
    cases henv : env n with
    | ok i => rw [tryStrategies_cons_ok env n o rest i henv]; simp
    | error m =>
      cases rest with
      | nil => rw [tryStrategies_last_error env n o m henv]; simp
      | cons o2 rest2 =>
        rw [tryStrategies_cons_error env n o o2 rest2 m henv]
        simp [ih (n + 1)]

theorem tryStrategies_dropLast_fail (env : Env) :
    ∀ (opts : List Opts) (n : Nat),
      ∀ r ∈ ((tryStrategies env n opts).2).dropLast, r.ok = false := by
  intro opts
  induction opts with
  | nil => intro n r hr; simp [tryStrategies] at hr
  | cons o rest ih =>
    intro n r hr
    cases henv : env n with
    | ok i => rw [tryStrategies_cons_ok env n o rest i henv] at hr; simp at hr
    | error m =>
      cases rest with
      | nil => rw [tryStrategies_last_error env n o m henv] at hr; simp at hr
      | cons o2 rest2 =>
        rw [tryStrategies_cons_error env n o o2 rest2 m henv] at hr
        rw [List.dropLast_cons_of_ne_nil (tryStrategies_trace_nonempty env (o2 :: rest2) (n + 1) (by simp))] at hr
        rcases List.mem_cons.mp hr with h | h
        · exact h ▸ rfl
        · exact ih (n + 1) r h

theorem tryStrategies_ok_last (env : Env) :
    ∀ (opts : List Opts) (n : Nat) (fo : Opts) (info : Info),
      (tryStrategies env n opts).1 = .ok (fo, info) →
      ((tryStrategies env n opts).2).getLast? = some ⟨fo, true⟩ := by
  intro opts
  induction opts with
  | nil => intro n fo info h; simp [tryStrategies] at h
  | cons o rest ih =>
    intro n fo info h
    cases henv : env n with
    | ok i =>
      rw [tryStrategies_cons_ok env n o rest i henv] at h ⊢
      simp at h ⊢
      exact h.1
    | error m =>
      cases rest with
      | nil => rw [tryStrategies_last_error env n o m henv] at h; simp at h
      | cons o2 rest2 =>
        rw [tryStrategies_cons_error env n o o2 rest2 m henv] at h ⊢
        simp only at h
        have hlast := ih (n + 1) fo info h
        rw [List.getLast?_cons, hlast]
        simp

theorem tryStrategies_first_success (env : Env) :
    ∀ (opts : List Opts) (n k : Nat) (info : Info) (hk : k < opts.length),
      (∀ j, j < k → (env (n + j)).isOk = false) →
      env (n + k) = .ok info →
      tryStrategies env n opts =
        (.ok (opts.get ⟨k, hk⟩, info),
         (opts.take k).map (fun o => ⟨o, false⟩) ++ [⟨opts.get ⟨k, hk⟩, true⟩]) := by
  intro opts
  induction opts with
  | nil => intro n k info hk; simp at hk
  | cons o rest ih =>
    intro n k info hk hfail hok
    cases k with
    | zero =>
      have h0 : env n = .ok info := by simpa using hok
      rw [tryStrategies_cons_ok env n o rest info h0]
      simp
    | succ k' =>
      have h0 : (env n).isOk = false := by
        have h' := hfail 0 (by omega)
        rwa [Nat.add_zero] at h'
      cases henv : env n with
      | ok i => rw [henv] at h0; simp [Except.isOk, Except.toBool] at h0
      | error m =>
        have hk' : k' < rest.length := by
          simp only [List.length_cons] at hk
          omega
        have hfail' : ∀ j, j < k' → (env (n + 1 + j)).isOk = false := by
          intro j hj
          have := hfail (j + 1) (by omega)
          have e : n + (j + 1) = n + 1 + j := by omega
          rw [e] at this; exact this
        have hok' : env (n + 1 + k') = .ok info := by
          have e : n + 1 + k' = n + (k' + 1) := by omega
          rw [e]; exact hok
        cases rest with
        | nil => simp at hk'
        | cons o2 rest2 =>
          rw [tryStrategies_cons_error env n o o2 rest2 m henv]
          rw [ih (n + 1) k' info hk' hfail' hok']
          simp

theorem tryStrategies_all_fail (env : Env) :
    ∀ (opts : List Opts) (n : Nat),
      opts ≠ [] →
      (∀ j, j < opts.length → (env (n + j)).isOk = false) →
      tryStrategies env n opts =
        (.error (errMsg (env (n + opts.length - 1))),
         opts.map (fun o => ⟨o, false⟩)) := by
  intro opts
  induction opts with
  | nil => intro n h; exact absurd rfl h
  | cons o rest ih =>
    intro n _ hfail
    have h0 : (env n).isOk = false := by
      have h' := hfail 0 (by simp only [List.length_cons]; omega)
      rwa [Nat.add_zero] at h' 
    cases henv : env n with
    | ok i => rw [henv] at h0; simp [Except.isOk, Except.toBool] at h0
    | error m =>
      cases rest with
      | nil =>
        rw [tryStrategies_last_error env n o m henv]
        simp [errMsg, henv]
      | cons o2 rest2 =>
        have hfail' : ∀ j, j < (o2 :: rest2).length → (env (n + 1 + j)).isOk = false := by
          intro j hj
          have := hfail (j + 1) (by simpa using Nat.succ_lt_succ hj)
          have e : n + (j + 1) = n + 1 + j := by omega
          rw [e] at this; exact this
        rw [tryStrategies_cons_error env n o o2 rest2 m henv,
            ih (n + 1) (by simp) hfail']
        have e : n + 1 + (o2 :: rest2).length - 1 = n + (o :: o2 :: rest2).length - 1 := by
          simp only [List.length_cons]; omega
        rw [e]; simp

theorem strategies_length (lt : String) : (strategies lt).length = 9 := rfl

theorem strategies_output_none (lt : String) :
    ∀ o ∈ strategies lt, o.output = none := by
  intro o ho
  simp only [strategies, List.mem_cons, List.mem_singleton] at ho
  rcases ho with h | h | h | h | h | h | h | h | h | h
  all_goals first
    | (subst h; split <;> rfl)
    | (subst h; rfl)
    | simp at h

theorem checkFormatsOpts_output_none (lt : String) :
    (checkFormatsOpts lt).output = none := rfl

theorem strategies_ne_nil (lt : String) : strategies lt ≠ [] := by
  simp [strategies]

theorem downloadVideo_probe_error (cfg : Config) (url : String) (env : Env) (m : String)
    (h : (tryStrategies env 1 (strategies (detectLinkType url))).1 = .error m) :
    downloadVideo cfg url env =
      (.error (exhaustMsg (detectLinkType url) m),
       ⟨checkFormatsOpts (detectLinkType url), (env 0).isOk⟩ ::
         (tryStrategies env 1 (strategies (detectLinkType url))).2) := by
  simp only [downloadVideo, h]

/-! ## C1 -/

/-- Claim C1: for every URL and environment, `downloadVideo`'s probe phase
attempts the presets strictly in index order (the attempted options are an
initial segment of the preset list, in order); every attempt before the
last one failed (a failure continues to the next preset); on a success the
loop stops there and records the succeeding preset; the first success is
where it stops; and when every preset fails `downloadVideo` fails with the
single classified error and performs no fetch invocation. -/
theorem downloadVideo_probe_contract (cfg : Config) (url : String) (env : Env) :
    (((tryStrategies env 1 (strategies (detectLinkType url))).2).map CallRec.opts =
       (strategies (detectLinkType url)).take
         ((tryStrategies env 1 (strategies (detectLinkType url))).2).length)
    ∧ (∀ r ∈ ((tryStrategies env 1 (strategies (detectLinkType url))).2).dropLast,
         r.ok = false)
    ∧ (∀ fo info, (tryStrategies env 1 (strategies (detectLinkType url))).1 = .ok (fo, info) →
         ((tryStrategies env 1 (strategies (detectLinkType url))).2).getLast? =
           some ⟨fo, true⟩)
    ∧ (∀ k info, ∀ hk : k < (strategies (detectLinkType url)).length,
         (∀ j, j < k → (env (1 + j)).isOk = false) →
         env (1 + k) = .ok info →
         tryStrategies env 1 (strategies (detectLinkType url)) =
           (.ok ((strategies (detectLinkType url)).get ⟨k, hk⟩, info),
            ((strategies (detectLinkType url)).take k).map (fun o => ⟨o, false⟩) ++
              [⟨(strategies (detectLinkType url)).get ⟨k, hk⟩, true⟩]))
    ∧ ((∀ j, j < (strategies (detectLinkType url)).length → (env (1 + j)).isOk = false) →
         (downloadVideo cfg url env).1 =
           .error (exhaustMsg (detectLinkType url) (errMsg (env 9)))
         ∧ ((downloadVideo cfg url env).2).filter isFetchRec = []) := by
  refine ⟨tryStrategies_opts_initial_segment env _ 1,
          tryStrategies_dropLast_fail env _ 1,
          fun fo info h => tryStrategies_ok_last env _ 1 fo info h,
          fun k info hk hfail hok =>
            tryStrategies_first_success env _ 1 k info hk hfail hok,
          ?_⟩
  intro hall
  have h9 : tryStrategies env 1 (strategies (detectLinkType url)) =
      (.error (errMsg (env 9)),
       (strategies (detectLinkType url)).map (fun o => ⟨o, false⟩)) := by
    have h := tryStrategies_all_fail env (strategies (detectLinkType url)) 1
      (strategies_ne_nil _) hall
    simpa [strategies_length] using h
  have hdv := downloadVideo_probe_error cfg url env (errMsg (env 9)) (by rw [h9])
  rw [hdv]
  constructor
  · rfl
  · simp only [List.filter]
    have hc0 : isFetchRec ⟨checkFormatsOpts (detectLinkType url), (env 0).isOk⟩ = false := rfl
    rw [hc0]
    rw [h9]
    rw [List.filter_eq_nil_iff]
    intro r hr
    rcases List.mem_map.mp hr with ⟨o, ho, rfl⟩
    simp [isFetchRec, strategies_output_none _ o ho]

/-- Witness for C1: with every call failing, `downloadVideo` on a VK link
returns the classified aggregate error and its trace holds no fetch
invocation. -/
theorem downloadVideo_probe_contract_witness :
    (downloadVideo cfg0 "https://vk.com/video1" envFail).1 =
      .error (exhaustMsg (detectLinkType "https://vk.com/video1") (errMsg (envFail 9)))
    ∧ ((downloadVideo cfg0 "https://vk.com/video1" envFail).2).filter isFetchRec = [] :=
  (downloadVideo_probe_contract cfg0 "https://vk.com/video1" envFail).2.2.2.2
    (by decide)

/-! ## C3 and C4: post-probe validation and the fetch fallback ladder -/

theorem tryStrategies_trace_opts_mem (env : Env) (opts : List Opts) (n : Nat) :
    ∀ r ∈ (tryStrategies env n opts).2, r.opts ∈ opts := by
  intro r hr
  have h1 : r.opts ∈ ((tryStrategies env n opts).2).map CallRec.opts :=
    List.mem_map_of_mem _ hr
  rw [tryStrategies_opts_initial_segment] at h1
  exact List.take_subset _ _ h1

theorem probeTrace_no_fetch (env : Env) (lt : String) (n : Nat) :
    ∀ r ∈ (tryStrategies env n (strategies lt)).2, isFetchRec r = false := by
  intro r hr
  have h2 := tryStrategies_trace_opts_mem env (strategies lt) n r hr
  simp [isFetchRec, strategies_output_none lt _ h2]

theorem fetchOptions_output (lt : String) (fo : Opts) (out : String) :
    (fetchOptions lt fo out).output = some out := by
  simp only [fetchOptions]
  split_ifs <;> rfl

/-- Claim C3: when the probe succeeds but the reported duration exceeds the
configured ceiling, `downloadVideo` fails with the duration-exceeded error
and performs zero fetch-phase invocations. -/
theorem duration_guard (cfg : Config) (url : String) (env : Env) (fo : Opts) (info : Info)
    (hp : (tryStrategies env 1 (strategies (detectLinkType url))).1 = .ok (fo, info))
    (hd : info.duration.getD 0 > cfg.maxDuration) :
    (downloadVideo cfg url env).1 =
      .error (durationMsg (info.duration.getD 0) cfg.maxDuration)
    ∧ fetchTrace cfg url env = [] := by
  have hdv : downloadVideo cfg url env =
      (.error (durationMsg (info.duration.getD 0) cfg.maxDuration),
       ⟨checkFormatsOpts (detectLinkType url), (env 0).isOk⟩ ::
         (tryStrategies env 1 (strategies (detectLinkType url))).2) := by
    simp only [downloadVideo, hp]
    rw [if_pos hd]
  unfold fetchTrace
  rw [hdv]
  refine ⟨rfl, ?_⟩
  rw [List.filter_eq_nil_iff]
  intro r hr
  rcases List.mem_cons.mp hr with h | h
  · subst h; simp [isFetchRec, checkFormatsOpts_output_none]
  · simp [probeTrace_no_fetch env _ 1 r h]

/-- Witness for C3: ceiling 75, probed duration 120 → duration-exceeded
failure and zero fetch invocations. -/
theorem duration_guard_witness :
    (downloadVideo cfg0 "https://vk.com/video2" envLong).1 =
      .error (durationMsg ((infoLong.duration).getD 0) cfg0.maxDuration)
    ∧ fetchTrace cfg0 "https://vk.com/video2" envLong = [] :=
  duration_guard cfg0 "https://vk.com/video2" envLong
    { dumpSingleJson := true, noWarnings := true, format := some "best" }
    infoLong (by decide) (by decide)

/-- Claim C4: when the fetch attempt that reuses the succeeding probe
preset fails, the run makes exactly the two last-resort attempts in order —
minimal `best`, then minimal `worst` — stopping at the first success; if
both fail the whole operation fails with the last error; no other fetch
attempts occur. -/
theorem fetch_fallback_contract (cfg : Config) (url : String) (env : Env)
    (fo : Opts) (info : Info) (e1 : String)
    (hp : (tryStrategies env 1 (strategies (detectLinkType url))).1 = .ok (fo, info))
    (hnd : ¬ info.duration.getD 0 > cfg.maxDuration)
    (hf1 : env (1 + probeLen env (detectLinkType url)) = .error e1) :
    ((env (1 + probeLen env (detectLinkType url) + 1)).isOk = true →
       (downloadVideo cfg url env).1 = .ok ⟨info, outFilePath cfg.dir info.id⟩
       ∧ fetchTrace cfg url env =
           [⟨fetchOptions (detectLinkType url) fo (outFilePath cfg.dir info.id), false⟩,
            ⟨bestOpts (outFilePath cfg.dir info.id), true⟩])
    ∧ (∀ e2, env (1 + probeLen env (detectLinkType url) + 1) = .error e2 →
         (env (1 + probeLen env (detectLinkType url) + 2)).isOk = true →
         (downloadVideo cfg url env).1 = .ok ⟨info, outFilePath cfg.dir info.id⟩
         ∧ fetchTrace cfg url env =
             [⟨fetchOptions (detectLinkType url) fo (outFilePath cfg.dir info.id), false⟩,
              ⟨bestOpts (outFilePath cfg.dir info.id), false⟩,
              ⟨worstOpts (outFilePath cfg.dir info.id), true⟩])
    ∧ (∀ e2 e3, env (1 + probeLen env (detectLinkType url) + 1) = .error e2 →
         env (1 + probeLen env (detectLinkType url) + 2) = .error e3 →
         (downloadVideo cfg url env).1 = .error e3
         ∧ fetchTrace cfg url env =
             [⟨fetchOptions (detectLinkType url) fo (outFilePath cfg.dir info.id), false⟩,
              ⟨bestOpts (outFilePath cfg.dir info.id), false⟩,
              ⟨worstOpts (outFilePath cfg.dir info.id), false⟩]) := by
  have hprobe_filter :
      (⟨checkFormatsOpts (detectLinkType url), (env 0).isOk⟩ ::
        (tryStrategies env 1 (strategies (detectLinkType url))).2).filter isFetchRec = [] := by
    rw [List.filter_eq_nil_iff]
    intro r hr
    rcases List.mem_cons.mp hr with h | h
    · subst h; simp [isFetchRec, checkFormatsOpts_output_none]
    · simp [probeTrace_no_fetch env _ 1 r h]
  have hfr : isFetchRec
      ⟨fetchOptions (detectLinkType url) fo (outFilePath cfg.dir info.id), false⟩ = true := by
    simp [isFetchRec, fetchOptions_output]
  refine ⟨?_, ?_, ?_⟩
  · intro h2
    cases h2ok : env (1 + probeLen env (detectLinkType url) + 1) with
    | error m => rw [h2ok] at h2; simp [Except.isOk, Except.toBool] at h2
    | ok i2 =>
      have hdv : downloadVideo cfg url env =
          (.ok ⟨info, outFilePath cfg.dir info.id⟩,
           (⟨checkFormatsOpts (detectLinkType url), (env 0).isOk⟩ ::
             (tryStrategies env 1 (strategies (detectLinkType url))).2) ++
             [⟨fetchOptions (detectLinkType url) fo (outFilePath cfg.dir info.id), false⟩,
              ⟨bestOpts (outFilePath cfg.dir info.id), true⟩]) := by
        simp only [downloadVideo, hp]
        rw [if_neg hnd]
        simp only [probeLen] at hf1 h2ok
        rw [hf1, h2ok]
      unfold fetchTrace
      rw [hdv]
      refine ⟨rfl, ?_⟩
      rw [List.filter_append, hprobe_filter]
      simp [isFetchRec, fetchOptions_output, bestOpts]
  · intro e2 h2 h3
    cases h3ok : env (1 + probeLen env (detectLinkType url) + 2) with
    | error m => rw [h3ok] at h3; simp [Except.isOk, Except.toBool] at h3
    | ok i3 =>
      have hdv : downloadVideo cfg url env =
          (.ok ⟨info, outFilePath cfg.dir info.id⟩,
           (⟨checkFormatsOpts (detectLinkType url), (env 0).isOk⟩ ::
             (tryStrategies env 1 (strategies (detectLinkType url))).2) ++
             [⟨fetchOptions (detectLinkType url) fo (outFilePath cfg.dir info.id), false⟩,
              ⟨bestOpts (outFilePath cfg.dir info.id), false⟩,
              ⟨worstOpts (outFilePath cfg.dir info.id), true⟩]) := by
        simp only [downloadVideo, hp]
        rw [if_neg hnd]
        simp only [probeLen] at hf1 h2 h3ok
        rw [hf1, h2, h3ok]
      unfold fetchTrace
      rw [hdv]
      refine ⟨rfl, ?_⟩
      rw [List.filter_append, hprobe_filter]
      simp [isFetchRec, fetchOptions_output, bestOpts, worstOpts]
  · intro e2 e3 h2 h3
    have hdv : downloadVideo cfg url env =
        (.error e3,
         (⟨checkFormatsOpts (detectLinkType url), (env 0).isOk⟩ ::
           (tryStrategies env 1 (strategies (detectLinkType url))).2) ++
           [⟨fetchOptions (detectLinkType url) fo (outFilePath cfg.dir info.id), false⟩,
            ⟨bestOpts (outFilePath cfg.dir info.id), false⟩,
            ⟨worstOpts (outFilePath cfg.dir info.id), false⟩]) := by
      simp only [downloadVideo, hp]
      rw [if_neg hnd]
      simp only [probeLen] at hf1 h2 h3
      rw [hf1, h2, h3]
    unfold fetchTrace
    rw [hdv]
    refine ⟨rfl, ?_⟩
    rw [List.filter_append, hprobe_filter]
    simp [isFetchRec, fetchOptions_output, bestOpts, worstOpts]

/-- Witness for C4: probe succeeds at strategy 0 but every fetch attempt
fails — the run makes exactly the reuse attempt, the `best` fallback and
the `worst` fallback ladder and fails with the last error. -/
theorem fetch_fallback_contract_witness :
    (downloadVideo cfg0 "https://vk.com/video1" envFetchFail).1 = .error "fail4"
    ∧ fetchTrace cfg0 "https://vk.com/video1" envFetchFail =
        [⟨fetchOptions (detectLinkType "https://vk.com/video1")
            { dumpSingleJson := true, noWarnings := true, format := some "best" }
            (outFilePath cfg0.dir info0.id), false⟩,
         ⟨bestOpts (outFilePath cfg0.dir info0.id), false⟩,
         ⟨worstOpts (outFilePath cfg0.dir info0.id), false⟩] :=
  (fetch_fallback_contract cfg0 "https://vk.com/video1" envFetchFail
      { dumpSingleJson := true, noWarnings := true, format := some "best" }
      info0 "fail2" (by decide) (by decide) (by decide)).2.2
    "fail3" "fail4" (by decide) (by decide)

/-! ## C2: what the fetch phase reuses from the succeeding probe preset -/

/-- Counterexample to claim C2 as stated: on a VK link whose probe succeeds
with preset 3 (format `worst`, no headers, no extra flags), the first
fetch-phase invocation does not use that preset's configuration with only
the output path added — its headers are the fixed mobile defaults, which the
succeeding preset never carried. -/
theorem fetch_reuse_counterexample :
    probeWinner env3 (detectLinkType "https://vk.com/video1") =
      some { dumpSingleJson := true, noWarnings := true, format := some "worst" }
    ∧ (((downloadVideo cfg0 "https://vk.com/video1" env3).2).find? isFetchRec).map recHeader =
        some (some mobileHeaders)
    ∧ (probeWinner env3 (detectLinkType "https://vk.com/video1")).map Opts.addHeader =
        some none
    ∧ (((downloadVideo cfg0 "https://vk.com/video1" env3).2).find? isFetchRec).map recHeader ≠
        (probeWinner env3 (detectLinkType "https://vk.com/video1")).map Opts.addHeader
    ∧ (((downloadVideo cfg0 "https://vk.com/video1" env3).2).find? isFetchRec).map CallRec.opts ≠
        some { dumpSingleJson := true, noWarnings := true, format := some "worst",
               output := some "/app/vid1.mp4" } := by
  refine ⟨by decide, by decide, by decide, by decide, by decide⟩

/-- Claim C2 (amended): when preset `k` is the first probe preset to
succeed, the first fetch-phase invocation uses the options `fetchOptions`
built from preset `k`: preset `k`'s format selector is reused for non-Shorts
links (with `best` substituted when absent) while Shorts links always fetch
with the fixed `18/best[height<=720]` selector; preset `k`'s headers and
age-limit are copied when present; everything else (the default mobile
headers when the preset carries none, the certificate/playlist/retry flags,
the Shorts extractor arguments) is fixed by the fetch phase, with the output
path added. -/
theorem fetch_first_call_uses_fetchOptions (cfg : Config) (url : String) (env : Env)
    (fo : Opts) (info : Info)
    (hp : (tryStrategies env 1 (strategies (detectLinkType url))).1 = .ok (fo, info))
    (hnd : ¬ info.duration.getD 0 > cfg.maxDuration) :
    (((downloadVideo cfg url env).2).find? isFetchRec) =
      some ⟨fetchOptions (detectLinkType url) fo (outFilePath cfg.dir info.id),
            (env (1 + probeLen env (detectLinkType url))).isOk⟩
    ∧ (fetchOptions (detectLinkType url) fo (outFilePath cfg.dir info.id)).format =
        some (if detectLinkType url = "youtube_shorts" then "18/best[height<=720]"
              else jsOrStr fo.format "best")
    ∧ (fetchOptions (detectLinkType url) fo (outFilePath cfg.dir info.id)).addHeader =
        (if fo.addHeader.isSome then fo.addHeader else some mobileHeaders)
    ∧ (fetchOptions (detectLinkType url) fo (outFilePath cfg.dir info.id)).ageLimit =
        (if jsTruthyNat fo.ageLimit then fo.ageLimit else none)
    ∧ (fetchOptions (detectLinkType url) fo (outFilePath cfg.dir info.id)).output =
        some (outFilePath cfg.dir info.id) := by
  have hprobe_none :
      (⟨checkFormatsOpts (detectLinkType url), (env 0).isOk⟩ ::
        (tryStrategies env 1 (strategies (detectLinkType url))).2).find? isFetchRec = none := by
    rw [List.find?_eq_none]
    intro r hr
    rcases List.mem_cons.mp hr with h | h
    · subst h; simp [isFetchRec, checkFormatsOpts_output_none]
    · simp [probeTrace_no_fetch env _ 1 r h]
  have hfr : ∀ b : Bool, isFetchRec
      ⟨fetchOptions (detectLinkType url) fo (outFilePath cfg.dir info.id), b⟩ = true := by
    intro b; simp [isFetchRec, fetchOptions_output]
  refine ⟨?_, ?_, ?_, ?_, fetchOptions_output _ _ _⟩
  · cases h1 : env (1 + probeLen env (detectLinkType url)) with
    | ok i1 =>
      have hdv : (downloadVideo cfg url env).2 =
          (⟨checkFormatsOpts (detectLinkType url), (env 0).isOk⟩ ::
            (tryStrategies env 1 (strategies (detectLinkType url))).2) ++
            [⟨fetchOptions (detectLinkType url) fo (outFilePath cfg.dir info.id), true⟩] := by
        simp only [downloadVideo, hp]
        rw [if_neg hnd]
        simp only [probeLen] at h1
        rw [h1]
      rw [hdv, List.find?_append, hprobe_none]
      simp [List.find?, hfr true, Except.isOk, Except.toBool]
    | error m1 =>
      cases h2 : env (1 + probeLen env (detectLinkType url) + 1) with
      | ok i2 =>
        have hdv : (downloadVideo cfg url env).2 =
            (⟨checkFormatsOpts (detectLinkType url), (env 0).isOk⟩ ::
              (tryStrategies env 1 (strategies (detectLinkType url))).2) ++
              [⟨fetchOptions (detectLinkType url) fo (outFilePath cfg.dir info.id), false⟩,
               ⟨bestOpts (outFilePath cfg.dir info.id), true⟩] := by
          simp only [downloadVideo, hp]
          rw [if_neg hnd]
          simp only [probeLen] at h1 h2
          rw [h1, h2]
        rw [hdv, List.find?_append, hprobe_none]
        simp [List.find?, hfr false, Except.isOk, Except.toBool]
      | error m2 =>
        cases h3 : env (1 + probeLen env (detectLinkType url) + 2) with
        | ok i3 =>
          have hdv : (downloadVideo cfg url env).2 =
              (⟨checkFormatsOpts (detectLinkType url), (env 0).isOk⟩ ::
                (tryStrategies env 1 (strategies (detectLinkType url))).2) ++
                [⟨fetchOptions (detectLinkType url) fo (outFilePath cfg.dir info.id), false⟩,
                 ⟨bestOpts (outFilePath cfg.dir info.id), false⟩,
                 ⟨worstOpts (outFilePath cfg.dir info.id), true⟩] := by
            simp only [downloadVideo, hp]
            rw [if_neg hnd]
            simp only [probeLen] at h1 h2 h3
            rw [h1, h2, h3]
          rw [hdv, List.find?_append, hprobe_none]
          simp [List.find?, hfr false, Except.isOk, Except.toBool]
        | error m3 =>
          have hdv : (downloadVideo cfg url env).2 =
              (⟨checkFormatsOpts (detectLinkType url), (env 0).isOk⟩ ::
                (tryStrategies env 1 (strategies (detectLinkType url))).2) ++
                [⟨fetchOptions (detectLinkType url) fo (outFilePath cfg.dir info.id), false⟩,
                 ⟨bestOpts (outFilePath cfg.dir info.id), false⟩,
                 ⟨worstOpts (outFilePath cfg.dir info.id), false⟩] := by
            simp only [downloadVideo, hp]
            rw [if_neg hnd]
            simp only [probeLen] at h1 h2 h3
            rw [h1, h2, h3]
          rw [hdv, List.find?_append, hprobe_none]
          simp [List.find?, hfr false, Except.isOk, Except.toBool]
  · simp only [fetchOptions]
    split_ifs <;> rfl
  · simp only [fetchOptions]
    split_ifs <;> rfl
  · simp only [fetchOptions]
    split_ifs <;> rfl

/-- Witness for the amended C2: concrete run on a VK link where probe
preset 3 succeeds; the first fetch call carries exactly
`fetchOptions "vk" (strategy 3) "/app/vid1.mp4"`. -/
theorem fetch_first_call_uses_fetchOptions_witness :
    (((downloadVideo cfg0 "https://vk.com/video1" env3).2).find? isFetchRec) =
      some ⟨fetchOptions (detectLinkType "https://vk.com/video1")
              { dumpSingleJson := true, noWarnings := true, format := some "worst" }
              (outFilePath cfg0.dir info0.id),
            (env3 (1 + probeLen env3 (detectLinkType "https://vk.com/video1"))).isOk⟩ :=
  (fetch_first_call_uses_fetchOptions cfg0 "https://vk.com/video1" env3
    { dumpSingleJson := true, noWarnings := true, format := some "worst" }
    info0 (by decide) (by decide)).1

/-! ## C5: the link classifier is first-match classification -/

/-- Claim C5: `detectLinkType` lower-cases its input and classifies by the
ordered rule list of `specRules` — the `shorts` pattern outranks the generic
YouTube rule, the first matching rule wins, and a URL matching no rule is
classified `other` (and `other` arises exactly when no rule matches). -/
theorem detectLinkType_is_first_match (url : String) :
    detectLinkType url = specClassify url
    ∧ (detectLinkType url = "other" ↔
        specRules.find? (fun r => r.1 (jsToLower url)) = none) := by
  simp only [detectLinkType, specClassify, specRules, List.find?]
  cases h1 : jsIncludes (jsToLower url) "youtube.com/shorts/" || matchesShortsRegex (jsToLower url) <;>
  cases h2 : jsIncludes (jsToLower url) "youtube.com" || jsIncludes (jsToLower url) "youtu.be" <;>
  cases h3 : jsIncludes (jsToLower url) "instagram.com" <;>
  cases h4 : jsIncludes (jsToLower url) "tiktok.com" <;>
  cases h5 : jsIncludes (jsToLower url) "twitter.com" || jsIncludes (jsToLower url) "x.com" <;>
  cases h6 : jsIncludes (jsToLower url) "vk.com" <;>
  simp [h1, h2, h3, h4, h5, h6]

/-! ## C6: error classification on extraction exhaustion -/

/-- Claim C6: when extraction is exhausted, the user-facing message — the
catch-block classification applied to the classified exhaustion error — is
selected by substring matching and is always one of the known class
messages (private/restricted, removed/unavailable, age-restricted,
platform-specific, generic) or the classified exhaustion message itself
(the duration-substring passthrough); it is a function of the last
failure's message and the link's platform tag, and on instagram/youtube
links the platform-specific class is always selected. -/
theorem exhaustion_user_message (lt lastMsg : String) :
    (classifyUserError lt (exhaustMsg lt lastMsg) ∈
      [ "Instagram видео недоступно. Возможно, аккаунт приватный или видео удалено.",
        "Не удалось загрузить YouTube Shorts. Попробуйте позже или проверьте доступность видео.",
        "YouTube видео недоступно. Возможно, видео приватное или имеет ограничения.",
        "Видео приватное или недоступно.",
        "Видео недоступно или было удалено.",
        "Видео требует подтверждения возраста. Попробуйте другую ссылку.",
        "Ошибка при скачивании видео 😔",
        exhaustMsg lt lastMsg ])
    ∧ classifyUserError "instagram" (exhaustMsg "instagram" lastMsg) =
        "Instagram видео недоступно. Возможно, аккаунт приватный или видео удалено."
    ∧ classifyUserError "youtube" (exhaustMsg "youtube" lastMsg) =
        "YouTube видео недоступно. Возможно, видео приватное или имеет ограничения." := by
  refine ⟨?_, rfl, rfl⟩
  unfold classifyUserError
  split_ifs <;> simp

/-! ## C7: messages without a link never reach the pipeline -/

theorem prefixOf_iff (l1 l2 : List Char) : l1.isPrefixOf l2 = true ↔ l1 <+: l2 :=
  List.isPrefixOf_iff_prefix

theorem hasSub_correct (pat : List Char) :
    ∀ l : List Char, hasSub l pat = true ↔ pat <:+: l := by
  intro l
  induction l with
  | nil =>
    simp [hasSub, prefixOf_iff]
  | cons c t ih =>
    simp only [hasSub, Bool.or_eq_true, prefixOf_iff, ih]
    constructor
    · rintro (h | h)
      · exact List.IsPrefix.isInfix h
      · exact h.trans ( List.IsSuffix.isInfix (List.suffix_cons c t))
    · intro h
      rcases List.infix_cons_iff.mp h with h | h
      · exact Or.inl h
      · exact Or.inr h

theorem jsTrim_sublist_of_raw (s : String) : (jsTrim s).data <:+: s.data := by
  unfold jsTrim
  have h1 : ((s.data.dropWhile isJsWhitespace).reverse.dropWhile isJsWhitespace).reverse <+:
      s.data.dropWhile isJsWhitespace := by
    rw [← List.reverse_suffix]
    simpa using List.dropWhile_suffix isJsWhitespace
  exact ( List.IsPrefix.isInfix h1).trans ( List.IsSuffix.isInfix (List.dropWhile_suffix isJsWhitespace))

theorem urlMatchAt_some (l m : List Char) (h : urlMatchAt l = some m) :
    "http://".data <+: l ∨ "https://".data <+: l := by
  unfold urlMatchAt at h
  by_cases h1 : "https://".data.isPrefixOf l = true
  · exact Or.inr (prefixOf_iff _ _ |>.mp h1)
  · rw [if_neg h1] at h
    by_cases h3 : "http://".data.isPrefixOf l = true
    · exact Or.inl (prefixOf_iff _ _ |>.mp h3)
    · rw [if_neg h3] at h
      exact absurd h (by simp)

theorem firstUrl_some (m : List Char) :
    ∀ l : List Char, firstUrl l = some m →
      "http://".data <:+: l ∨ "https://".data <:+: l := by
  intro l
  induction l with
  | nil => intro h; simp [firstUrl] at h
  | cons c t ih =>
    intro h
    unfold firstUrl at h
    cases hm : urlMatchAt (c :: t) with
    | some u =>
      rcases urlMatchAt_some (c :: t) u hm with hp | hp
      · exact Or.inl ( List.IsPrefix.isInfix hp)
      · exact Or.inr ( List.IsPrefix.isInfix hp)
    | none =>
      rw [hm] at h
      rcases ih h with hi | hi
      · exact Or.inl (hi.trans ( List.IsSuffix.isInfix (List.suffix_cons c t)))
      · exact Or.inr (hi.trans ( List.IsSuffix.isInfix (List.suffix_cons c t)))

/-- Claim C7: a text message containing neither `http://` nor `https://`
makes the handler reply asking for a link, with zero invocations of the
extraction pipeline. -/
theorem no_link_no_extraction (validUrl : String → Bool) (raw : String)
    (h1 : jsIncludes raw "http://" = false)
    (h2 : jsIncludes raw "https://" = false) :
    textHandler validUrl raw = [.reply askLinkMsg]
    ∧ (textHandler validUrl raw).filter isDownloadAct = [] := by
  have hnone : firstUrl (jsTrim raw).data = none := by
    cases hfu : firstUrl (jsTrim raw).data with
    | none => rfl
    | some m =>
      exfalso
      rcases firstUrl_some m _ hfu with hi | hi
      · have : hasSub raw.data "http://".data = true :=
          (hasSub_correct _ _).mpr (hi.trans (jsTrim_sublist_of_raw raw))
        rw [show jsIncludes raw "http://" = hasSub raw.data "http://".data from rfl, this] at h1
        exact Bool.noConfusion h1
      · have : hasSub raw.data "https://".data = true :=
          (hasSub_correct _ _).mpr (hi.trans (jsTrim_sublist_of_raw raw))
        rw [show jsIncludes raw "https://" = hasSub raw.data "https://".data from rfl, this] at h2
        exact Bool.noConfusion h2
  constructor
  · simp only [textHandler]
    rw [hnone]
  · simp only [textHandler]
    rw [hnone]
    rfl

/-- Witness for C7: on plain text with no URL scheme, the handler just asks
for a link and triggers no download. -/
theorem no_link_no_extraction_witness :
    textHandler (fun _ => true) "hello there" = [.reply askLinkMsg]
    ∧ (textHandler (fun _ => true) "hello there").filter isDownloadAct = [] :=
  no_link_no_extraction (fun _ => true) "hello there" (by decide) (by decide)

/-! ## C8: the temporary file is deleted only after a successful delivery -/

/-- Claim C8: `sendVideo` deletes the local file immediately after the
delivery call succeeds — the successful trace is exactly the send followed
by the unlink — and on a failed delivery the error propagates and no unlink
is performed. -/
theorem unlink_only_after_successful_send (info : Info) (file : String) :
    sendVideo true info file = (.ok (), [.send file (buildCaption info), .unlink file])
    ∧ (sendVideo false info file).1 = .error "delivery failed"
    ∧ ((sendVideo false info file).2).filter isUnlink = [] :=
  ⟨rfl, rfl, rfl⟩

/-! ## C9: the feed watcher's seen-set invariant -/

theorem syncTick_seen_mem (dOk pOk : String → Bool) :
    ∀ (es : List FeedEntry) (seen : List String) (x : String),
      x ∈ (syncTick dOk pOk seen es).1 ↔
        x ∈ seen ∨ (x ∈ feedIds es ∧ dOk x = true ∧ pOk x = true) := by
  intro es
  induction es with
  | nil => intro seen x; simp [syncTick, feedIds]
  | cons e rest ih =>
    intro seen x
    cases hid : entryVideoId e with
    | none =>
      have hfeed : feedIds (e :: rest) = feedIds rest := by simp [feedIds, hid]
      have hstep : syncTick dOk pOk seen (e :: rest) = syncTick dOk pOk seen rest := by
        simp only [syncTick, hid]
      rw [hstep, hfeed]
      exact ih seen x
    | some id =>
      have hfeed : feedIds (e :: rest) = id :: feedIds rest := by simp [feedIds, hid]
      by_cases hseen : id ∈ seen
      · have hstep : syncTick dOk pOk seen (e :: rest) = syncTick dOk pOk seen rest := by
          simp only [syncTick, hid]
          rw [if_pos hseen]
        rw [hstep, hfeed, ih seen x]
        by_cases hx : x = id
        · subst hx; simp [hseen]
        · simp [List.mem_cons, hx]
      · cases hd : dOk id with
        | false =>
          have hstep : syncTick dOk pOk seen (e :: rest) =
              ((syncTick dOk pOk seen rest).1,
               SyncEff.download id :: (syncTick dOk pOk seen rest).2) := by
            simp only [syncTick, hid]
            rw [if_neg hseen, if_neg (show ¬dOk id = true by simp [hd])]
          rw [hstep, hfeed]
          dsimp only
          rw [ih seen x]
          by_cases hx : x = id
          · subst hx; simp [hd]
          · simp [List.mem_cons, hx]
        | true =>
          cases hp : pOk id with
          | false =>
            have hstep : syncTick dOk pOk seen (e :: rest) =
                ((syncTick dOk pOk seen rest).1,
                 SyncEff.download id :: SyncEff.post id :: (syncTick dOk pOk seen rest).2) := by
              simp only [syncTick, hid]
              rw [if_neg hseen, if_pos hd, if_neg (show ¬pOk id = true by simp [hp])]
            rw [hstep, hfeed]
            dsimp only
            rw [ih seen x]
            by_cases hx : x = id
            · subst hx; simp [hp]
            · simp [List.mem_cons, hx]
          | true =>
            have hstep : syncTick dOk pOk seen (e :: rest) =
                ((syncTick dOk pOk (id :: seen) rest).1,
                 SyncEff.download id :: SyncEff.post id ::
                   (syncTick dOk pOk (id :: seen) rest).2) := by
              simp only [syncTick, hid]
              rw [if_neg hseen, if_pos hd, if_pos hp]
            rw [hstep, hfeed]
            dsimp only
            rw [ih (id :: seen) x]
            by_cases hx : x = id
            · subst hx; simp [hd, hp]
            · simp [List.mem_cons, hx]

theorem syncTick_download_iff (dOk pOk : String → Bool) :
    ∀ (es : List FeedEntry) (seen : List String) (x : String),
      SyncEff.download x ∈ (syncTick dOk pOk seen es).2 ↔
        x ∈ feedIds es ∧ x ∉ seen := by
  intro es
  induction es with
  | nil => intro seen x; simp [syncTick, feedIds]
  | cons e rest ih =>
    intro seen x
    cases hid : entryVideoId e with
    | none =>
      have hfeed : feedIds (e :: rest) = feedIds rest := by simp [feedIds, hid]
      have hstep : syncTick dOk pOk seen (e :: rest) = syncTick dOk pOk seen rest := by
        simp only [syncTick, hid]
      rw [hstep, hfeed]
      exact ih seen x
    | some id =>
      have hfeed : feedIds (e :: rest) = id :: feedIds rest := by simp [feedIds, hid]
      by_cases hseen : id ∈ seen
      · have hstep : syncTick dOk pOk seen (e :: rest) = syncTick dOk pOk seen rest := by
          simp only [syncTick, hid]
          rw [if_pos hseen]
        rw [hstep, hfeed, ih seen x]
        by_cases hx : x = id
        · subst hx; simp [hseen]
        · simp [List.mem_cons, hx]
      · cases hd : dOk id with
        | false =>
          have hstep : syncTick dOk pOk seen (e :: rest) =
              ((syncTick dOk pOk seen rest).1,
               SyncEff.download id :: (syncTick dOk pOk seen rest).2) := by
            simp only [syncTick, hid]
            rw [if_neg hseen, if_neg (show ¬dOk id = true by simp [hd])]
          rw [hstep, hfeed]
          dsimp only
          rw [List.mem_cons, ih seen x]
          by_cases hx : x = id
          · subst hx; simp [hseen]
          · simp [List.mem_cons, hx]
        | true =>
          cases hp : pOk id with
          | false =>
            have hstep : syncTick dOk pOk seen (e :: rest) =
                ((syncTick dOk pOk seen rest).1,
                 SyncEff.download id :: SyncEff.post id :: (syncTick dOk pOk seen rest).2) := by
              simp only [syncTick, hid]
              rw [if_neg hseen, if_pos hd, if_neg (show ¬pOk id = true by simp [hp])]
            rw [hstep, hfeed]
            dsimp only
            rw [List.mem_cons, List.mem_cons, ih seen x]
            by_cases hx : x = id
            · subst hx; simp [hseen]
            · simp [List.mem_cons, hx]
          | true =>
            have hstep : syncTick dOk pOk seen (e :: rest) =
                ((syncTick dOk pOk (id :: seen) rest).1,
                 SyncEff.download id :: SyncEff.post id ::
                   (syncTick dOk pOk (id :: seen) rest).2) := by
              simp only [syncTick, hid]
              rw [if_neg hseen, if_pos hd, if_pos hp]
            rw [hstep, hfeed]
            dsimp only
            rw [List.mem_cons, List.mem_cons, ih (id :: seen) x]
            by_cases hx : x = id
            · subst hx; simp [hseen]
            · simp [List.mem_cons, hx]

/-- Claim C9: in one feed-watcher tick, an id already in the seen set is
never downloaded; the new seen set holds exactly the old ids plus the feed
ids whose download and post both succeeded (so the set only grows, only
with successfully posted ids, and a failed entry stays outside it to be
retried); and a download is attempted exactly for the feed ids not already
seen. -/
theorem feed_seen_invariant (dOk pOk : String → Bool) (seen : List String)
    (es : List FeedEntry) (x : String) :
    (x ∈ (syncTick dOk pOk seen es).1 ↔
       x ∈ seen ∨ (x ∈ feedIds es ∧ dOk x = true ∧ pOk x = true))
    ∧ (SyncEff.download x ∈ (syncTick dOk pOk seen es).2 ↔
       x ∈ feedIds es ∧ x ∉ seen) :=
  ⟨syncTick_seen_mem dOk pOk es seen x, syncTick_download_iff dOk pOk es seen x⟩

/-! ## C10: MAX_HEIGHT does not influence the extraction path -/

/-- Claim C10: two runs that differ only in the configured `MAX_HEIGHT`
produce identical results and identical sequences of external-tool
invocations — the value is carried in the configuration but never read by
`downloadVideo`. -/
theorem max_height_noninterference (d hA hB : Nat) (dir url : String) (env : Env) :
    downloadVideo ⟨d, hA, dir⟩ url env = downloadVideo ⟨d, hB, dir⟩ url env := rfl

end Bot

